import Mathlib

/-!
Verification model of the jobhunt pipeline core
(src/agents/job_fetcher.py, src/agents/job_filter.py, src/agents/job_ranker.py).

Python dictionaries carrying job listings are modelled by the structure
`Job`; a key that may be missing (read with `dict.get(k)` returning `None`)
becomes an `Option` field, a key read with `dict.get(k, default)` whose
default agrees with the field's default value becomes a plain field.
Python float scores are modelled by `ℚ`: every constant the scorer adds
(5.0, 10.0, 7.5, 8.0, 3.0) and every sum of them is exactly representable
in binary floating point, so rational arithmetic is an exact model.
A Python expression that can raise `TypeError` (an order comparison between
a str and a number) is modelled in the `Option` monad: `none` is a raised
exception.
-/

namespace JobHunt

/-! ### Python string primitives (ASCII model of str.lower / str.strip / in) -/

/-- Model of `str.lower` on one character (ASCII range, as exercised by the
repository's data). -/
def lowChar (c : Char) : Char :=
  if 'A' ≤ c ∧ c ≤ 'Z' then Char.ofNat (c.toNat + 32) else c

/-- Model of Python `s.lower()`. -/
def lowStr (s : String) : String := ⟨s.data.map lowChar⟩

/-- Whitespace for `str.strip`. -/
def isPyWS (c : Char) : Bool := c = ' ' || c = '\t' || c = '\n' || c = '\r'

/-- Model of Python `s.strip()`: drop leading and trailing whitespace. -/
def stripStr (s : String) : String :=
  ⟨((s.data.dropWhile isPyWS).reverse.dropWhile isPyWS).reverse⟩

/-- Char-list version of a starts-with test. -/
def startsCL : List Char → List Char → Bool
  | [], _ => true
  | _ :: _, [] => false
  | a :: as, b :: bs => a == b && startsCL as bs

/-- Char-list contiguous-occurrence test. -/
def hasInfixCL (needle : List Char) : List Char → Bool
  | [] => startsCL needle []
  | c :: t => startsCL needle (c :: t) || hasInfixCL needle t

/-- Model of Python `needle in hay` on strings (substring test). -/
def substrOf (needle hay : String) : Bool := hasInfixCL needle.data hay.data

/-! ### Canonical data model -/

/-- A value found under the `salary` key of a job dictionary: the sources
may deliver a number or a string (the normalizer defaults a missing salary
to the empty string). -/
inductive SalVal where
  | num (q : ℚ)
  | str (s : String)
deriving DecidableEq, Repr

/-- A value found under the `posted_date` key: a string from the normalizer
or a datetime (modelled as rational days) in hand-built dictionaries. -/
inductive DateVal where
  | dstr (s : String)
  | ddt (t : ℚ)
deriving DecidableEq, Repr

/-- A job-listing dictionary as consumed by the dedup, filter and ranking
code.  Field defaults equal the `dict.get` defaults used at every read
site, so a dictionary missing the key is the structure holding the
default. -/
structure Job where
  title : String := ""
  company : String := ""
  location : String := ""
  description : String := ""
  url : String := ""
  posted_date : Option DateVal := none
  salary : Option SalVal := none
  job_type : String := ""
  source : String := ""
  fetched_at : String := ""
  skills : List String := []
  is_remote : Bool := false
  experience_years : Option ℚ := none
  rank_score : Option ℚ := none
deriving DecidableEq, Repr

/-- The user profile dictionary read by `JobRanker` via `dict.get`. -/
structure Profile where
  skills : List String := []
  locations : List String := []
  min_salary : Option ℚ := none
  remote_only : Bool := false
  experience_years : Option ℚ := none
deriving DecidableEq, Repr

/-- `FilterCriteria` of src/agents/job_filter.py.  List fields collapse the
Python `None` default and the empty list: both are falsy and are only ever
iterated after a truthiness test. -/
structure FilterCriteria where
  required_skills : List String := []
  preferred_skills : List String := []
  locations : List String := []
  remote_only : Bool := false
  min_salary : Option ℚ := none
  max_salary : Option ℚ := none
  experience_min : Option ℚ := none
  experience_max : Option ℚ := none
  job_types : List String := []
  company_blacklist : List String := []
  company_whitelist : List String := []
  posted_within_days : Option ℚ := none
  keywords : List String := []
  exclude_keywords : List String := []
deriving DecidableEq, Repr

/-- Python truthiness of an optional number (`None` and `0` are falsy). -/
def truthyQ : Option ℚ → Bool
  | none => false
  | some q => decide (q ≠ 0)

/-- Python truthiness of a salary value (`0` and `""` are falsy). -/
def truthySal : SalVal → Bool
  | .num q => decide (q ≠ 0)
  | .str s => decide (s ≠ "")

/-! ### Normalizer: JobFetcher.parse_job_listing -/

/-- A raw record handed to `parse_job_listing`: any subset of the keys the
parser reads may be present. -/
structure RawJob where
  title : Option String := none
  company : Option String := none
  location : Option String := none
  description : Option String := none
  url : Option String := none
  posted_date : Option String := none
  salary : Option SalVal := none
  job_type : Option String := none
  source : Option String := none
deriving DecidableEq, Repr

/-- `JobFetcher.parse_job_listing` (job_fetcher.py:245-265).  Every read is
`raw_data.get(key, default)`, which never raises on a dictionary, so the
model is a total function.  `clock` models `datetime.utcnow().isoformat()`.
The produced dictionary carries no `skills`, `is_remote`,
`experience_years` or `rank_score` key; the structure fields hold exactly
the defaults every downstream `dict.get` read supplies for a missing
key. -/
def parse_job_listing (raw : RawJob) (clock : String) : Job :=
  { title := raw.title.getD ""
    company := raw.company.getD ""
    location := raw.location.getD ""
    description := raw.description.getD ""
    url := raw.url.getD ""
    posted_date := some (.dstr (raw.posted_date.getD ""))
    salary := some (raw.salary.getD (.str ""))
    job_type := raw.job_type.getD ""
    source := raw.source.getD "unknown"
    fetched_at := clock }

/-! ### Deduplicator: JobFetcher.deduplicate_jobs -/

/-- The key actually built at job_fetcher.py:311:
`(job.get("title", ""), job.get("company", ""), job.get("location", ""))`
with no trimming and no case folding. -/
def identity_key (j : Job) : String × String × String :=
  (j.title, j.company, j.location)

/-- The identity key as the specification defines it:
`(lowercase(trim(title)), lowercase(trim(company)), lowercase(trim(location)))`. -/
def spec_identity_key (j : Job) : String × String × String :=
  (lowStr (stripStr j.title), lowStr (stripStr j.company), lowStr (stripStr j.location))

/-- The loop of `deduplicate_jobs` with its `seen` set. -/
def dedup_go (seen : List (String × String × String)) : List Job → List Job
  | [] => []
  | j :: rest =>
    if identity_key j ∈ seen then dedup_go seen rest
    else j :: dedup_go (identity_key j :: seen) rest

/-- `JobFetcher.deduplicate_jobs` (job_fetcher.py:301-318) applied to a
listing sequence. -/
def deduplicate_jobs (jobs : List Job) : List Job := dedup_go [] jobs

/-! ### RankingEngine: JobRanker -/

/-- Count of distinct matches for the score: Python builds two lowercased
sets and takes `len(job_skills & user_skills)`. `nubStr` collapses
duplicates (which element survives is irrelevant to the count). -/
def nubStr : List String → List String
  | [] => []
  | a :: t => if (nubStr t).contains a then nubStr t else a :: nubStr t

/-- The `+7.5` salary step of `_compute_score` (job_ranker.py:55-59):
`if min_salary and job_salary and job_salary >= min_salary`.  Both
truthiness tests short-circuit; when they pass and the salary is a string
the `>=` comparison raises `TypeError` (`none`). -/
def salary_bonus (p : Profile) (j : Job) : Option ℚ :=
  if truthyQ p.min_salary then
    match j.salary with
    | none => some 0
    | some v =>
      if truthySal v then
        match v with
        | .num q => some (if p.min_salary.getD 0 ≤ q then 7.5 else 0)
        | .str _ => none
      else some 0
  else some 0

/-- The `+3.0` experience condition of `_compute_score` (job_ranker.py:64-68):
`if job_exp and exp_years and job_exp <= exp_years` (truthiness, so a `0`
on either side disables the bonus). -/
def exp_cond (p : Profile) (j : Job) : Bool :=
  truthyQ j.experience_years && truthyQ p.experience_years &&
    decide (j.experience_years.getD 0 ≤ p.experience_years.getD 0)

/-- `JobRanker._compute_score` (job_ranker.py:40-71). -/
def compute_score (p : Profile) (j : Job) : Option ℚ :=
  let job_skills := nubStr (j.skills.map lowStr)
  let user_skills := p.skills.map lowStr
  let skill_matches : ℕ := (job_skills.filter (fun s => user_skills.contains s)).length
  let jloc := lowStr j.location
  match salary_bonus p j with
  | none => none
  | some sal =>
    some ((skill_matches : ℚ) * 5.0
      + (if p.locations.any (fun l => substrOf (lowStr l) jloc) then 10.0 else 0)
      + sal
      + (if p.remote_only && (j.is_remote || substrOf "remote" jloc) then 8.0 else 0)
      + (if exp_cond p j then 3.0 else 0))

/-- The mutation `job["rank_score"] = self._compute_score(job)` applied to
one listing. -/
def set_rank_score (p : Profile) (j : Job) : Job :=
  { j with rank_score := compute_score p j }

/-- The scoring loop of `rank_jobs` (job_ranker.py:34-35): each listing is
mutated in place; a raised `TypeError` aborts the run. -/
def score_jobs (p : Profile) : List Job → Option (List Job)
  | [] => some []
  | j :: rest =>
    match compute_score p j with
    | none => none
    | some _ => (score_jobs p rest).map (set_rank_score p j :: ·)

/-- Sort key `lambda j: j["rank_score"]` (every listing has the key set by
the loop; `getD 0` is never reached on ranked output). -/
def rank_key (j : Job) : ℚ := j.rank_score.getD 0

/-- The comparison realised by `sorted(jobs, key=..., reverse=True)`:
`a` may stay before `b` iff its key is not smaller.  Python's sort is
stable, and `List.insertionSort` with this relation is the stable
descending sort: an element is inserted before the first element of
not-larger key, so elements with equal keys keep their input order. -/
def rank_rel (a b : Job) : Prop := rank_key b ≤ rank_key a

instance : DecidableRel rank_rel := fun a b => inferInstanceAs (Decidable (_ ≤ _))

instance : IsTotal Job rank_rel := ⟨fun a b => le_total (rank_key b) (rank_key a)⟩

instance : IsTrans Job rank_rel := ⟨fun _ _ _ hab hbc => le_trans hbc hab⟩

/-- `JobRanker.rank_jobs` (job_ranker.py:26-38): score (mutating) then
stable sort descending by the stored score. -/
def rank_jobs (p : Profile) (jobs : List Job) : Option (List Job) :=
  (score_jobs p jobs).map (List.insertionSort rank_rel)

/-! ### FilterEngine: JobFilter

`_check_posting_date` calls `datetime.fromisoformat` and `datetime.now()`;
the model threads them as parameters `isoParse` (returning `none` where
Python raises `ValueError`) and `now` (days as rationals).  No claim
depends on the date parser itself. -/

/-- `JobFilter._check_required_skills` (job_filter.py:125-147). -/
def check_required_skills (c : FilterCriteria) (j : Job) : Bool :=
  if c.required_skills.isEmpty then true
  else
    c.required_skills.all fun rs =>
      (j.skills.map lowStr).contains (lowStr rs)
        || substrOf (lowStr rs) (lowStr j.description)

/-- `JobFilter._check_location` (job_filter.py:149-170). -/
def check_location (c : FilterCriteria) (j : Job) : Bool :=
  if c.remote_only then
    j.is_remote || substrOf "remote" (lowStr j.location)
  else if c.locations.isEmpty then true
  else c.locations.any fun l => substrOf (lowStr l) (lowStr j.location)

/-- `JobFilter._check_salary` (job_filter.py:172-191).  `job.get("salary")`
is `None` for a missing key (pass unconditionally); otherwise each bound
whose criteria value is truthy triggers an order comparison, which raises
`TypeError` (`none`) when the stored salary is a string. -/
def check_salary (c : FilterCriteria) (j : Job) : Option Bool :=
  match j.salary with
  | none => some true
  | some v =>
    if truthyQ c.min_salary then
      match v with
      | .str _ => none
      | .num q =>
        if q < c.min_salary.getD 0 then some false
        else if truthyQ c.max_salary then
          if c.max_salary.getD 0 < q then some false else some true
        else some true
    else if truthyQ c.max_salary then
      match v with
      | .str _ => none
      | .num q => if c.max_salary.getD 0 < q then some false else some true
    else some true

/-- `JobFilter._check_experience` (job_filter.py:193-212). -/
def check_experience (c : FilterCriteria) (j : Job) : Bool :=
  match j.experience_years with
  | none => true
  | some e =>
    if truthyQ c.experience_min && decide (e < c.experience_min.getD 0) then false
    else if truthyQ c.experience_max && decide (c.experience_max.getD 0 < e) then false
    else true

/-- `JobFilter._check_job_type` (job_filter.py:214-227). -/
def check_job_type (c : FilterCriteria) (j : Job) : Bool :=
  if c.job_types.isEmpty then true
  else c.job_types.any fun t => substrOf (lowStr t) (lowStr j.job_type)

/-- `JobFilter._check_company` (job_filter.py:229-251). -/
def check_company (c : FilterCriteria) (j : Job) : Bool :=
  let company := lowStr j.company
  if !c.company_blacklist.isEmpty
      && c.company_blacklist.any (fun b => substrOf (lowStr b) company) then false
  else if !c.company_whitelist.isEmpty
      && !c.company_whitelist.any (fun w => substrOf (lowStr w) company) then false
  else true

/-- `JobFilter._check_posting_date` (job_filter.py:253-276).  A falsy
`posted_within_days`, a falsy/missing date or an unparseable date string
all pass; otherwise the date must be at least `now - days`. -/
def check_posting_date (isoParse : String → Option ℚ) (now : ℚ)
    (c : FilterCriteria) (j : Job) : Bool :=
  if truthyQ c.posted_within_days then
    match j.posted_date with
    | none => true
    | some (.dstr s) =>
      if s = "" then true
      else
        match isoParse s with
        | none => true
        | some t => decide (now - c.posted_within_days.getD 0 ≤ t)
    | some (.ddt t) => decide (now - c.posted_within_days.getD 0 ≤ t)
  else true

/-- `JobFilter._check_keywords` (job_filter.py:278-302). -/
def check_keywords (c : FilterCriteria) (j : Job) : Bool :=
  let combined := lowStr j.title ++ " " ++ lowStr j.description
  if !c.keywords.isEmpty && !c.keywords.any (fun k => substrOf (lowStr k) combined) then
    false
  else if c.exclude_keywords.any (fun k => substrOf (lowStr k) combined) then false
  else true

/-- `JobFilter._meets_criteria` (job_filter.py:79-123): the conjunction of
all checks in source order; a `TypeError` from the salary check aborts. -/
def meets_criteria (isoParse : String → Option ℚ) (now : ℚ)
    (c : FilterCriteria) (j : Job) : Option Bool :=
  if !check_required_skills c j then some false
  else if !check_location c j then some false
  else
    match check_salary c j with
    | none => none
    | some false => some false
    | some true =>
      if !check_experience c j then some false
      else if !check_job_type c j then some false
      else if !check_company c j then some false
      else if !check_posting_date isoParse now c j then some false
      else if !check_keywords c j then some false
      else some true

/-- `JobFilter.filter_jobs` (job_filter.py:57-77): keep the listings that
meet the criteria, in order; an exception raised by a check aborts the
run. -/
def filter_jobs (isoParse : String → Option ℚ) (now : ℚ)
    (c : FilterCriteria) : List Job → Option (List Job)
  | [] => some []
  | j :: rest =>
    match meets_criteria isoParse now c j with
    | none => none
    | some true => (filter_jobs isoParse now c rest).map (j :: ·)
    | some false => filter_jobs isoParse now c rest

/-! ### FetchOrchestrator: JobFetcher fetch pipeline

The network is modelled by an environment mapping `(url, params, attempt
number)` to the response of that attempt.  `asyncio.sleep` is modelled by
recording the requested delay. -/

/-- The JSON envelopes `_extract_jobs_from_response` understands. -/
structure RespData where
  elements : List RawJob := []
  results : List RawJob := []
  response_jobListings : List RawJob := []

/-- One response of a source: an HTTP status with a JSON body, a network
error (`aiohttp.ClientError`), or any other exception. -/
inductive Resp where
  | http (stat : ℕ) (data : RespData)
  | netErr
  | exn

/-- `JobFetcher._extract_jobs_from_response` (job_fetcher.py:224-243). -/
def extract_jobs_from_response (d : RespData) (source : String) : List RawJob :=
  if source = "linkedin" then d.elements
  else if source = "indeed" then d.results
  else if source = "glassdoor" then d.response_jobListings
  else []

/-- `max_retries = 3` (job_fetcher.py:190). -/
def max_retries : ℕ := 3

/-- `retry_delay = 1` (job_fetcher.py:191), the base backoff delay. -/
def retry_delay : ℚ := 1

/-- Outcome of `_make_api_request`: the raw records returned, the number of
attempts performed, and the sleeps requested (in order). -/
structure ApiResult where
  jobs : List RawJob
  attempts : ℕ
  delays : List ℚ
deriving Repr

/-- The retry loop of `_make_api_request` (job_fetcher.py:193-222):
`for attempt in range(max_retries)`, status 200 returns the extracted
records, 429 sleeps `retry_delay * (attempt + 1)` and retries, any other
status returns `[]`, a network error sleeps `retry_delay` and retries
unless it is the last attempt, any other exception returns `[]`; an
exhausted loop returns `[]`. -/
def make_api_request_go (env : ℕ → Resp) (source : String) :
    ℕ → ℕ → List ℚ → ApiResult
  | 0, attempt, delays => ⟨[], attempt, delays⟩
  | fuel + 1, attempt, delays =>
    match env attempt with
    | .http 200 d => ⟨extract_jobs_from_response d source, attempt + 1, delays⟩
    | .http 429 _ =>
      make_api_request_go env source fuel (attempt + 1)
        (delays ++ [retry_delay * ((attempt : ℚ) + 1)])
    | .http _ _ => ⟨[], attempt + 1, delays⟩
    | .netErr =>
      if attempt < max_retries - 1 then
        make_api_request_go env source fuel (attempt + 1) (delays ++ [retry_delay])
      else ⟨[], attempt + 1, delays⟩
    | .exn => ⟨[], attempt + 1, delays⟩

/-- `JobFetcher._make_api_request` (job_fetcher.py:179-222). -/
def make_api_request (env : ℕ → Resp) (source : String) : ApiResult :=
  make_api_request_go env source max_retries 0 []

/-- The network environment of one run. -/
def Env : Type := String → List (String × String) → ℕ → Resp

/-- URL used by `_fetch_linkedin` / `_fetch_indeed` / `_fetch_glassdoor`
(job_fetcher.py:106,135,163). -/
def source_url (source : String) : String :=
  if source = "linkedin" then "https://api.linkedin.com/v2/jobs"
  else if source = "indeed" then "https://api.indeed.com/ads/apisearch"
  else "https://api.glassdoor.com/api/api.htm"

/-- Query parameters built per source (job_fetcher.py:107-111,136-141,
164-169), numeric values rendered as text. -/
def source_params (source keywords location : String) : List (String × String) :=
  if source = "linkedin" then
    [("keywords", keywords), ("location", location), ("count", "25")]
  else if source = "indeed" then
    [("q", keywords), ("l", location), ("limit", "25"), ("format", "json")]
  else
    [("action", "jobs-prog"), ("q", keywords), ("l", location), ("pagesize", "25")]

/-- The sources `_fetch_all_sources` dispatches on (job_fetcher.py:72-80);
any other name is logged and gets no task. -/
def is_known_source (source : String) : Bool :=
  source = "linkedin" || source = "indeed" || source = "glassdoor"

/-- One source task: `_fetch_linkedin` / `_fetch_indeed` /
`_fetch_glassdoor` (job_fetcher.py:94-177) — request, then normalize each
raw record; `none` when the source name is unknown and no task is
created. -/
def fetch_source (env : Env) (clock keywords location source : String) :
    Option (List Job × ApiResult) :=
  if is_known_source source then
    let r := make_api_request (env (source_url source) (source_params source keywords location)) source
    some (r.jobs.map (parse_job_listing · clock), r)
  else none

/-- `JobFetcher._fetch_all_sources` (job_fetcher.py:61-92): one task per
known source, results concatenated in source order (`asyncio.gather`
preserves task order).  The second component records each task's
`ApiResult` for the retry-accounting claims. -/
def fetch_all_sources (sources : List String) (env : Env)
    (clock keywords location : String) : List Job × List (String × ApiResult) :=
  let tasks := sources.filterMap fun s =>
    (fetch_source env clock keywords location s).map (fun r => (s, r))
  ((tasks.map fun t => t.2.1).flatten, tasks.map fun t => (t.1, t.2.2))

/-- The default source list of `JobFetcher.__init__` (job_fetcher.py:28). -/
def default_sources : List String := ["linkedin", "indeed", "glassdoor"]

/-- `JobFetcher.fetch_jobs` (job_fetcher.py:43-59): ensure a session exists
and delegate to `_fetch_all_sources`; the keywords and location are passed
through without any validation. -/
def fetch_jobs (sources : List String) (env : Env)
    (clock keywords location : String) : List Job × List (String × ApiResult) :=
  fetch_all_sources sources env clock keywords location

/-! ### Reference functions written from the specification text -/

/-- The additive reference score exactly as the specification states it:
5.0 per distinct case-insensitive skill match; 10.0 for a preferred
location substring; 7.5 whenever `minSalary` is set (including 0), the
salary is present as a number (including 0) and `salary ≥ minSalary`; 8.0
for the remote preference; 3.0 whenever both experience values are present
(including 0) and `experienceYears ≤ profile.experienceYears`. -/
def spec_score (p : Profile) (j : Job) : ℚ :=
  let job_skills := nubStr (j.skills.map lowStr)
  let skill_matches : ℕ :=
    (job_skills.filter (fun s => (p.skills.map lowStr).contains s)).length
  (skill_matches : ℚ) * 5.0
    + (if p.locations.any (fun l => substrOf (lowStr l) (lowStr j.location)) then 10.0 else 0)
    + (match p.min_salary, j.salary with
       | some m, some (.num q) => if m ≤ q then 7.5 else 0
       | _, _ => 0)
    + (if p.remote_only && (j.is_remote || substrOf "remote" (lowStr j.location)) then 8.0 else 0)
    + (match j.experience_years, p.experience_years with
       | some je, some pe => if je ≤ pe then 3.0 else 0
       | _, _ => 0)

/-- The reference score amended to the code's truthiness semantics: the
salary bonus additionally needs `minSalary ≠ 0` and a nonzero numeric
salary, the experience bonus additionally needs both experience values
nonzero. -/
def spec_score_amended (p : Profile) (j : Job) : ℚ :=
  let job_skills := nubStr (j.skills.map lowStr)
  let skill_matches : ℕ :=
    (job_skills.filter (fun s => (p.skills.map lowStr).contains s)).length
  (skill_matches : ℚ) * 5.0
    + (if p.locations.any (fun l => substrOf (lowStr l) (lowStr j.location)) then 10.0 else 0)
    + (match p.min_salary, j.salary with
       | some m, some (.num q) => if m ≠ 0 ∧ q ≠ 0 ∧ m ≤ q then 7.5 else 0
       | _, _ => 0)
    + (if p.remote_only && (j.is_remote || substrOf "remote" (lowStr j.location)) then 8.0 else 0)
    + (match j.experience_years, p.experience_years with
       | some je, some pe => if je ≠ 0 ∧ pe ≠ 0 ∧ je ≤ pe then 3.0 else 0
       | _, _ => 0)

/-! ### Concrete instances used by counterexamples and witnesses -/

/-- A listing; compare `jobEng2`/`jobEng3`, same job up to case/whitespace. -/
def jobEng : Job := { title := "Engineer", company := "Acme", location := "NY" }

/-- Same job as `jobEng` under the specification's identity key (leading
space, lowercase title), a different raw triple. -/
def jobEng2 : Job := { title := " engineer", company := "Acme", location := "NY" }

/-- Same job as `jobEng` under the specification's identity key (trailing
space, uppercase title), a different raw triple. -/
def jobEng3 : Job := { title := "ENGINEER ", company := "Acme", location := "NY" }

/-- A profile preferring location "NY"; both `jobX` and `jobY` score
exactly 10.0 against it. -/
def profNY : Profile := { locations := ["NY"] }

/-- First of two equal-score listings. -/
def jobX : Job := { title := "X", location := "NY" }

/-- Second of two equal-score listings. -/
def jobY : Job := { title := "Y", location := "NY" }

/-- A profile whose `min_salary` is set to `0` — falsy in Python. -/
def profMinZero : Profile := { min_salary := some 0 }

/-- A listing with a numeric salary of 50000. -/
def jobSal50k : Job := { salary := some (.num 50000) }

/-- A raw record whose location text contains "remote" and nothing else. -/
def rawRemote : RawJob := { location := some "Remote Office" }

/-- The empty raw record: every field missing. -/
def rawEmptyRec : RawJob := {}

/-- Criteria with a minimum-salary bound set. -/
def critMin100k : FilterCriteria := { min_salary := some 100000 }

/-- Whether a response is the rate-limited status 429. -/
def is_rate_limited : Resp → Bool
  | .http stat _ => stat == 429
  | _ => false

/-- A raw record delivered by the well-behaved sources in the fetch
examples. -/
def rawJobA : RawJob := { title := some "Dev" }

/-- An environment in which linkedin is rate-limited on every attempt and
every other endpoint answers 200 with one record. -/
def envRL : Env := fun url _ _ =>
  if url = source_url "linkedin" then .http 429 {}
  else .http 200 { results := [rawJobA], response_jobListings := [rawJobA] }

/-- An environment in which every endpoint answers 200 with one record on
every attempt. -/
def env200 : Env := fun _ _ _ =>
  .http 200 { elements := [rawJobA], results := [rawJobA],
              response_jobListings := [rawJobA] }

/-! ## Helper lemmas: deduplication -/

theorem dedup_go_sublist (seen : List (String × String × String)) :
    ∀ l : List Job, List.Sublist (dedup_go seen l) l := by
  intro l
  induction l generalizing seen with
  | nil => simp [dedup_go]
  | cons j rest ih =>
    by_cases h : identity_key j ∈ seen
    · simp only [dedup_go, if_pos h]
      exact (ih seen).trans (List.sublist_cons_self j rest)
    · simp only [dedup_go, if_neg h]
      exact (ih (identity_key j :: seen)).cons₂ j

theorem dedup_go_not_seen (seen : List (String × String × String)) :
    ∀ l : List Job, ∀ j ∈ dedup_go seen l, identity_key j ∉ seen := by
  intro l
  induction l generalizing seen with
  | nil => simp [dedup_go]
  | cons a rest ih =>
    intro j hj
    by_cases h : identity_key a ∈ seen
    · simp only [dedup_go, if_pos h] at hj
      exact ih seen j hj
    · simp only [dedup_go, if_neg h] at hj
      rw [List.mem_cons] at hj
      rcases hj with hj | hj
      · subst hj; exact h
      · intro hmem
        exact ih (identity_key a :: seen) j hj (List.mem_cons_of_mem _ hmem)

theorem dedup_go_pairwise (seen : List (String × String × String)) :
    ∀ l : List Job,
      (dedup_go seen l).Pairwise (fun a b => identity_key a ≠ identity_key b) := by
  intro l
  induction l generalizing seen with
  | nil => simp [dedup_go]
  | cons a rest ih =>
    by_cases h : identity_key a ∈ seen
    · simp only [dedup_go, if_pos h]; exact ih seen
    · simp only [dedup_go, if_neg h]
      refine List.Pairwise.cons ?_ (ih (identity_key a :: seen))
      intro b hb hab
      exact dedup_go_not_seen _ _ b hb (hab ▸ List.mem_cons_self _ _)

theorem dedup_go_congr {seen₁ seen₂ : List (String × String × String)}
    (h : ∀ x, x ∈ seen₁ ↔ x ∈ seen₂) :
    ∀ l : List Job, dedup_go seen₁ l = dedup_go seen₂ l := by
  intro l
  induction l generalizing seen₁ seen₂ with
  | nil => simp [dedup_go]
  | cons a rest ih =>
    by_cases hm : identity_key a ∈ seen₁
    · simp only [dedup_go, if_pos hm, if_pos ((h _).mp hm)]
      exact ih h
    · simp only [dedup_go, if_neg hm, if_neg (fun hx => hm ((h _).mpr hx))]
      refine congrArg (a :: ·) (ih ?_)
      intro x
      simp only [List.mem_cons]
      exact or_congr Iff.rfl (h x)

theorem dedup_go_cons_seen (k : String × String × String)
    (seen : List (String × String × String)) :
    ∀ l : List Job,
      dedup_go (k :: seen) l
        = dedup_go seen (l.filter fun x => decide (identity_key x ≠ k)) := by
  intro l
  induction l generalizing seen with
  | nil => simp [dedup_go]
  | cons a rest ih =>
    by_cases hk : identity_key a = k
    · have hfa : List.filter (fun x => decide (identity_key x ≠ k)) (a :: rest)
          = List.filter (fun x => decide (identity_key x ≠ k)) rest := by
        rw [List.filter_cons]; simp [hk]
      have hmem : identity_key a ∈ k :: seen := by simp [hk]
      rw [hfa]
      simp only [dedup_go, if_pos hmem]
      exact ih seen
    · have hfa : List.filter (fun x => decide (identity_key x ≠ k)) (a :: rest)
          = a :: List.filter (fun x => decide (identity_key x ≠ k)) rest := by
        rw [List.filter_cons]; simp [hk]
      rw [hfa]
      by_cases hs : identity_key a ∈ seen
      · have hmem : identity_key a ∈ k :: seen := List.mem_cons_of_mem _ hs
        simp only [dedup_go, if_pos hmem, if_pos hs]
        exact ih seen
      · have hmem : identity_key a ∉ k :: seen := by
          simp only [List.mem_cons, not_or]; exact ⟨hk, hs⟩
        simp only [dedup_go, if_neg hmem, if_neg hs]
        refine congrArg (a :: ·) ?_
        have hswap :
            dedup_go (identity_key a :: k :: seen) rest
              = dedup_go (k :: identity_key a :: seen) rest :=
          dedup_go_congr (by intro x; simp only [List.mem_cons]; tauto) rest
        rw [hswap, ih (identity_key a :: seen)]

theorem deduplicate_first_wins (j : Job) (rest : List Job) :
    deduplicate_jobs (j :: rest)
      = j :: deduplicate_jobs
          (rest.filter fun x => decide (identity_key x ≠ identity_key j)) := by
  have h : identity_key j ∉ ([] : List (String × String × String)) :=
    List.not_mem_nil _
  show dedup_go [] (j :: rest) = _
  simp only [dedup_go, if_neg h]
  rw [dedup_go_cons_seen]
  rfl

theorem dedup_go_of_pairwise (seen : List (String × String × String)) :
    ∀ l : List Job, (∀ x ∈ l, identity_key x ∉ seen) →
      l.Pairwise (fun a b => identity_key a ≠ identity_key b) →
      dedup_go seen l = l := by
  intro l
  induction l generalizing seen with
  | nil => simp [dedup_go]
  | cons a rest ih =>
    intro hni hpw
    have ha : identity_key a ∉ seen := hni a (List.mem_cons_self _ _)
    simp only [dedup_go, if_neg ha]
    refine congrArg (a :: ·) (ih _ ?_ hpw.of_cons)
    intro x hx
    simp only [List.mem_cons, not_or]
    exact ⟨fun h => (List.rel_of_pairwise_cons hpw hx) h.symm,
      hni x (List.mem_cons_of_mem _ hx)⟩

theorem deduplicate_idem (jobs : List Job) :
    deduplicate_jobs (deduplicate_jobs jobs) = deduplicate_jobs jobs :=
  dedup_go_of_pairwise [] _ (by simp) (dedup_go_pairwise [] jobs)

/-! ## Claim C1 -/

/-- C1, counterexample: `deduplicate_jobs` keys on the raw
`(title, company, location)` triple, not on the trimmed lowercased
identity key.  The two listings here are the same job under the
specification's identity key, yet both survive deduplication, so the
output does contain two listings sharing the (specification) identity
key. -/
theorem dedup_spec_key_counterexample :
    deduplicate_jobs [jobEng, jobEng2] = [jobEng, jobEng2]
      ∧ spec_identity_key jobEng = spec_identity_key jobEng2
      ∧ jobEng ≠ jobEng2 := by
  refine ⟨?_, by decide, by decide⟩
  decide

/-- C1, amended: deduplication uses the exact, case-sensitive, untrimmed
key `(title, company, location)`; two listings are treated as the same job
precisely when these raw fields coincide, and after `deduplicate_jobs`
runs no two listings in the output share this exact key. -/
theorem dedup_exact_key_pairwise (jobs : List Job) :
    (deduplicate_jobs jobs).Pairwise
      (fun a b => identity_key a ≠ identity_key b) :=
  dedup_go_pairwise [] jobs

/-! ## Claim C5 -/

/-- C5, counterexample: with the identity key as the specification
defines it (trimmed, lowercased), `dedupe` does not drop a later
occurrence of the same key: a later listing differing only in case and
whitespace survives. -/
theorem dedup_identity_key_counterexample :
    deduplicate_jobs [jobEng, jobEng3] = [jobEng, jobEng3]
      ∧ spec_identity_key jobEng = spec_identity_key jobEng3
      ∧ jobEng ≠ jobEng3 := by
  refine ⟨?_, by decide, by decide⟩
  decide

/-- C5, amended: with the exact raw key `(title, company, location)` in
place of the trimmed lowercased identity key, `deduplicate_jobs` keeps the
first occurrence of each key and drops every later occurrence (the
recursive equation), returns a sublist of its input (so the surviving
first occurrences keep their relative order), and is idempotent. -/
theorem dedup_first_wins_order_idempotent :
    (∀ (j : Job) (rest : List Job),
        deduplicate_jobs (j :: rest)
          = j :: deduplicate_jobs
              (rest.filter fun x => decide (identity_key x ≠ identity_key j)))
      ∧ (∀ jobs : List Job, List.Sublist (deduplicate_jobs jobs) jobs)
      ∧ (∀ jobs : List Job,
          deduplicate_jobs (deduplicate_jobs jobs) = deduplicate_jobs jobs) :=
  ⟨deduplicate_first_wins, dedup_go_sublist [], deduplicate_idem⟩

/-! ## Helper lemmas: ranking -/

theorem score_jobs_eq_map (p : Profile) :
    ∀ jobs : List Job, (∀ j ∈ jobs, (compute_score p j).isSome) →
      score_jobs p jobs = some (jobs.map (set_rank_score p)) := by
  intro jobs
  induction jobs with
  | nil => intro _; rfl
  | cons j rest ih =>
    intro h
    have hj := h j (List.mem_cons_self _ _)
    rcases hs : compute_score p j with _ | s
    · rw [hs] at hj; simp at hj
    · simp only [score_jobs, hs, List.map_cons]
      rw [ih (fun x hx => h x (List.mem_cons_of_mem _ hx))]
      rfl

theorem rank_jobs_eq_sort (p : Profile) (jobs : List Job)
    (h : ∀ j ∈ jobs, (compute_score p j).isSome) :
    rank_jobs p jobs
      = some (List.insertionSort rank_rel (jobs.map (set_rank_score p))) := by
  unfold rank_jobs
  rw [score_jobs_eq_map p jobs h]
  rfl

theorem orderedInsert_filter_rank (s : ℚ) (a : Job) :
    ∀ l : List Job,
      (List.orderedInsert rank_rel a l).filter (fun x => rank_key x == s)
        = if rank_key a == s then a :: l.filter (fun x => rank_key x == s)
          else l.filter (fun x => rank_key x == s) := by
  intro l
  induction l with
  | nil =>
    by_cases hpa : (rank_key a == s) <;>
      simp [List.orderedInsert, List.filter, hpa]
  | cons b t ih =>
    by_cases hr : rank_rel a b
    · rw [List.orderedInsert, if_pos hr]
      by_cases hpa : (rank_key a == s) <;> by_cases hpb : (rank_key b == s) <;>
        simp [List.filter_cons, hpa, hpb]
    · rw [List.orderedInsert, if_neg hr]
      by_cases hpa : (rank_key a == s)
      · have ha : rank_key a = s := by simpa using hpa
        have hlt : s < rank_key b := ha ▸ lt_of_not_le hr
        have hpb : (rank_key b == s) = false := by
          simp only [beq_eq_false_iff_ne, ne_eq]
          exact fun hbs => absurd (hbs ▸ hlt) (lt_irrefl s)
        simp [List.filter_cons, hpb, ih, hpa]
      · simp [List.filter_cons, ih, hpa]

theorem insertionSort_filter_rank (s : ℚ) :
    ∀ l : List Job,
      (List.insertionSort rank_rel l).filter (fun x => rank_key x == s)
        = l.filter (fun x => rank_key x == s) := by
  intro l
  induction l with
  | nil => rfl
  | cons a t ih =>
    simp only [List.insertionSort]
    rw [orderedInsert_filter_rank]
    by_cases hpa : (rank_key a == s) <;> simp [List.filter_cons, hpa, ih]

theorem filter_jobs_sublist (iso : String → Option ℚ) (now : ℚ) (c : FilterCriteria) :
    ∀ jobs out : List Job,
      filter_jobs iso now c jobs = some out → List.Sublist out jobs := by
  intro jobs
  induction jobs with
  | nil =>
    intro out h
    simp only [filter_jobs, Option.some.injEq] at h
    simp [← h]
  | cons j rest ih =>
    intro out h
    simp only [filter_jobs] at h
    rcases hm : meets_criteria iso now c j with _ | b
    · rw [hm] at h; cases h
    · rw [hm] at h
      cases b
      · exact (ih out h).trans (List.sublist_cons_self j rest)
      · rcases ho : filter_jobs iso now c rest with _ | rest'
        · rw [ho] at h; cases h
        · rw [ho] at h
          have h' : j :: rest' = out := by simpa using h
          rw [← h']
          exact (ih rest' ho).cons₂ j

theorem compute_profNY_jobX : compute_score profNY jobX = some 10.0 := by
  have h1 : profNY.locations.any
      (fun l => substrOf (lowStr l) (lowStr jobX.location)) = true := by decide
  have h2 : exp_cond profNY jobX = false := by decide
  have h3 : salary_bonus profNY jobX = some 0 := by decide
  have h4 : (profNY.remote_only
      && (jobX.is_remote || substrOf "remote" (lowStr jobX.location))) = false := by
    decide
  have h5 : (nubStr (jobX.skills.map lowStr)).filter
      (fun s => (profNY.skills.map lowStr).contains s) = ([] : List String) := by decide
  simp only [compute_score, h1, h2, h3, h4, h5, if_true, if_false,
    Bool.false_eq_true, List.length_nil, Nat.cast_zero, Option.some.injEq]
  norm_num

/-! ## Claim C2 -/

/-- C2, counterexample: `rank_jobs` does mutate its input listings — it
stores the computed relevance score onto the listing under `rank_score`.
The input listing has `rank_score = none`; the listing that comes back
from ranking that same input carries `rank_score = some 10.0`, so it is no
longer equal to its pre-call value. -/
theorem rank_mutates_counterexample :
    ((rank_jobs profNY [jobX]).getD []).map Job.rank_score = [some 10.0]
      ∧ jobX.rank_score = none := by
  constructor
  · simp [rank_jobs, score_jobs, compute_profNY_jobX, set_rank_score,
      List.insertionSort, List.orderedInsert]
  · rfl

/-- C2, amended: `JobFilter.filter_jobs` never mutates its input — its
output is a sublist of the input, every returned listing equal to the
input listing; `JobRanker.rank_jobs`, however, writes the computed score
onto each listing under the `rank_score` key (`set_rank_score`) and
returns exactly those mutated listings, stably sorted. -/
theorem filter_nonmutating_rank_stores_score :
    (∀ (iso : String → Option ℚ) (now : ℚ) (c : FilterCriteria)
        (jobs out : List Job),
        filter_jobs iso now c jobs = some out → List.Sublist out jobs)
      ∧ (∀ (p : Profile) (jobs : List Job),
          (∀ j ∈ jobs, (compute_score p j).isSome) →
            rank_jobs p jobs
              = some (List.insertionSort rank_rel (jobs.map (set_rank_score p)))) :=
  ⟨fun iso now c => filter_jobs_sublist iso now c, rank_jobs_eq_sort⟩

/-- C2, witness for the amended theorem at concrete inputs: an
unconstrained criteria set on `[jobX]` and the ranking of `[jobX]`
against `profNY`. -/
theorem filter_nonmutating_rank_stores_score_witness :
    List.Sublist [jobX] [jobX]
      ∧ rank_jobs profNY [jobX]
          = some (List.insertionSort rank_rel ([jobX].map (set_rank_score profNY))) :=
  ⟨filter_nonmutating_rank_stores_score.1 (fun _ => none) 0 {} [jobX] [jobX]
      (by decide),
   filter_nonmutating_rank_stores_score.2 profNY [jobX] (by decide)⟩

/-! ## Claim C3 -/

theorem salary_bonus_eq (p : Profile) (j : Job)
    (h : ∀ s, j.salary ≠ some (SalVal.str s)) :
    salary_bonus p j
      = some (match p.min_salary, j.salary with
          | some m, some (.num q) => if m ≠ 0 ∧ q ≠ 0 ∧ m ≤ q then (7.5 : ℚ) else 0
          | _, _ => 0) := by
  rcases hm : p.min_salary with _ | m <;> rcases hs : j.salary with _ | v
  · simp [salary_bonus, truthyQ, hm, hs]
  · rcases v with q | s
    · simp [salary_bonus, truthyQ, hm, hs]
    · simp [salary_bonus, truthyQ, hm, hs]
  · by_cases h0 : m = 0 <;> simp [salary_bonus, truthyQ, hm, hs, h0]
  · rcases v with q | s
    · by_cases h0 : m = 0
      · simp [salary_bonus, truthyQ, truthySal, hm, hs, h0]
      · by_cases hq0 : q = 0
        · simp [salary_bonus, truthyQ, truthySal, hm, hs, h0, hq0]
        · by_cases hle : m ≤ q <;>
            simp [salary_bonus, truthyQ, truthySal, hm, hs, h0, hq0, hle]
    · exact absurd hs (h s)

theorem exp_bonus_eq (p : Profile) (j : Job) :
    (if exp_cond p j then (3.0 : ℚ) else 0)
      = (match j.experience_years, p.experience_years with
         | some je, some pe => if je ≠ 0 ∧ pe ≠ 0 ∧ je ≤ pe then (3.0 : ℚ) else 0
         | _, _ => 0) := by
  rcases hj : j.experience_years with _ | je <;>
    rcases hp : p.experience_years with _ | pe <;>
      simp [exp_cond, truthyQ, hj, hp, Bool.and_eq_true, decide_eq_true_eq, and_assoc]

/-- C3, counterexample: with `minSalary = 0` (set, but falsy in Python)
and a listing salary of 50000, the reference function of the claim awards
the 7.5 salary bonus (0 is "set" and 50000 ≥ 0) but `_compute_score`
awards nothing, because `if min_salary and ...` treats 0 as absent. -/
theorem score_zero_min_salary_counterexample :
    compute_score profMinZero jobSal50k = some 0
      ∧ spec_score profMinZero jobSal50k = 7.5
      ∧ (0 : ℚ) ≠ 7.5 := by
  refine ⟨?_, ?_, by norm_num⟩
  · have h3 : salary_bonus profMinZero jobSal50k = some 0 := by decide
    have h2 : exp_cond profMinZero jobSal50k = false := by decide
    simp only [compute_score, h3, h2, Option.some.injEq]
    norm_num [profMinZero, jobSal50k, nubStr]
  · simp only [spec_score]
    norm_num [profMinZero, jobSal50k, nubStr]

/-- C3, amended: for a listing whose salary field is absent or numeric,
the relevance score equals the additive reference function with the two
truthiness conditions made explicit: the 7.5 salary bonus needs
`minSalary` set and nonzero, a nonzero numeric salary, and
`salary ≥ minSalary`; the 3.0 experience bonus needs both experience
values present and nonzero and `listing ≤ profile`; the skill, location
and remote terms are as the claim states them. -/
theorem compute_score_eq_reference_amended (p : Profile) (j : Job)
    (h : ∀ s, j.salary ≠ some (SalVal.str s)) :
    compute_score p j = some (spec_score_amended p j) := by
  have hsal := salary_bonus_eq p j h
  simp only [compute_score, spec_score_amended, hsal, Option.some.injEq]
  rw [exp_bonus_eq]

/-- C3, witness: the amended reference theorem applied to `profMinZero`
and the numeric-salary listing `jobSal50k`. -/
theorem compute_score_eq_reference_amended_witness :
    compute_score profMinZero jobSal50k
      = some (spec_score_amended profMinZero jobSal50k) :=
  compute_score_eq_reference_amended profMinZero jobSal50k
    (fun s hcon => by simp [jobSal50k] at hcon)

/-! ## Claim C4 -/

/-- C4, confirmed: when every listing's score computes (no string salary
meets a truthy `min_salary`), `rank_jobs` returns the scored listings in
non-increasing score order, and listings with equal scores keep the
relative order they had in the input to the sort (the input listings,
each with its score stored, in input order) — Python's `sorted` is stable
and `reverse=True` preserves the order of ties. -/
theorem rank_jobs_sorted_stable (p : Profile) (jobs : List Job)
    (h : ∀ j ∈ jobs, (compute_score p j).isSome) :
    List.Sorted rank_rel ((rank_jobs p jobs).getD [])
      ∧ ∀ s : ℚ, ((rank_jobs p jobs).getD []).filter (fun x => rank_key x == s)
          = (jobs.map (set_rank_score p)).filter (fun x => rank_key x == s) := by
  rw [rank_jobs_eq_sort p jobs h]
  exact ⟨by simpa using List.sorted_insertionSort rank_rel (jobs.map (set_rank_score p)),
    fun s => by simpa using insertionSort_filter_rank s (jobs.map (set_rank_score p))⟩

/-- C4, witness: `jobX` and `jobY` both score 10.0 against `profNY`; the
ranked output is sorted and its score-10 listings appear in the input
order `[jobX, jobY]`. -/
theorem rank_jobs_sorted_stable_witness :
    List.Sorted rank_rel ((rank_jobs profNY [jobX, jobY]).getD [])
      ∧ ((rank_jobs profNY [jobX, jobY]).getD []).filter
            (fun x => rank_key x == (10.0 : ℚ))
          = ([jobX, jobY].map (set_rank_score profNY)).filter
              (fun x => rank_key x == (10.0 : ℚ)) :=
  ⟨(rank_jobs_sorted_stable profNY [jobX, jobY] (by decide)).1,
   (rank_jobs_sorted_stable profNY [jobX, jobY] (by decide)).2 10.0⟩

/-! ## Claim C6 -/

/-- C6, counterexample: normalization does not produce the documented
optional defaults.  For a raw record whose location contains "remote",
the parsed listing's `is_remote` is still false (no inference happens in
`parse_job_listing`; downstream checks re-derive it from the location
text), and for the empty raw record the salary and posted date come out
as the present empty string, not as absent values. -/
theorem parse_defaults_counterexample :
    (parse_job_listing rawRemote "t").is_remote = false
      ∧ substrOf "remote" (lowStr (parse_job_listing rawRemote "t").location) = true
      ∧ (parse_job_listing rawRemote "t").salary ≠ none
      ∧ (parse_job_listing rawEmptyRec "t").salary = some (.str "")
      ∧ (parse_job_listing rawEmptyRec "t").posted_date = some (.dstr "") := by
  refine ⟨rfl, by decide, by decide, rfl, rfl⟩

/-- C6, amended: `parse_job_listing` never raises (it is a total function
of the raw record and the capture clock) and fills missing fields with
these defaults: empty string for title, company, location, description,
url and job type; the present empty string (not absence) for salary and
posted date; "unknown" for source; it stores the clock, sets no
`is_remote` (false, never inferred from the location) and no experience
field. -/
theorem parse_defaults_amended (raw : RawJob) (clock : String) :
    (raw.title = none → (parse_job_listing raw clock).title = "")
      ∧ (raw.company = none → (parse_job_listing raw clock).company = "")
      ∧ (raw.location = none → (parse_job_listing raw clock).location = "")
      ∧ (raw.description = none → (parse_job_listing raw clock).description = "")
      ∧ (raw.url = none → (parse_job_listing raw clock).url = "")
      ∧ (raw.job_type = none → (parse_job_listing raw clock).job_type = "")
      ∧ (raw.salary = none → (parse_job_listing raw clock).salary = some (.str ""))
      ∧ (raw.posted_date = none →
          (parse_job_listing raw clock).posted_date = some (.dstr ""))
      ∧ (raw.source = none → (parse_job_listing raw clock).source = "unknown")
      ∧ (parse_job_listing raw clock).is_remote = false
      ∧ (parse_job_listing raw clock).experience_years = none
      ∧ (parse_job_listing raw clock).fetched_at = clock := by
  refine ⟨?_, ?_, ?_, ?_, ?_, ?_, ?_, ?_, ?_, rfl, rfl, rfl⟩ <;>
    (intro h; simp [parse_job_listing, h])

/-- C6, witness for the amended theorem: the empty raw record with a fixed
clock. -/
theorem parse_defaults_amended_witness :
    (parse_job_listing rawEmptyRec "t").title = ""
      ∧ (parse_job_listing rawEmptyRec "t").salary = some (.str "")
      ∧ (parse_job_listing rawEmptyRec "t").is_remote = false :=
  ⟨(parse_defaults_amended rawEmptyRec "t").1 rfl,
   (parse_defaults_amended rawEmptyRec "t").2.2.2.2.2.2.1 rfl,
   (parse_defaults_amended rawEmptyRec "t").2.2.2.2.2.2.2.2.2.1⟩

/-! ## Claim C7 -/

/-- C7, confirmed: `_check_salary` passes every listing whose salary field
is absent (`job.get("salary")` is `None`), regardless of the configured
minimum or maximum bound: a missing salary never rejects the listing on
the salary predicate. -/
theorem check_salary_absent_passes (c : FilterCriteria) (j : Job)
    (h : j.salary = none) : check_salary c j = some true := by
  simp [check_salary, h]

/-- C7, witness: a salary-less listing against criteria with both bounds
configured. -/
theorem check_salary_absent_passes_witness :
    check_salary { min_salary := some 100000, max_salary := some 200000 } jobX
      = some true :=
  check_salary_absent_passes _ jobX rfl

/-! ## Claim C10 -/

/-- C10: the claim is right and the code is wrong.  A raw record with no
salary field parses to a listing whose salary is the empty string, which
is not `None`; `_check_salary` then evaluates `"" < 100000`, a
str-to-number order comparison that raises `TypeError` in Python 3
(modelled as `none`), so `filter_jobs` fails instead of returning a
result whenever a salary bound is configured. -/
theorem filter_salary_default_type_error :
    check_salary critMin100k (parse_job_listing rawEmptyRec "t") = none
      ∧ filter_jobs (fun _ => none) 0 critMin100k [parse_job_listing rawEmptyRec "t"]
          = none := by
  exact ⟨by decide, by decide⟩

/-! ## Helper lemmas: fetch and retry -/

theorem rl_destruct (r : Resp) (h : is_rate_limited r = true) :
    ∃ d, r = .http 429 d := by
  cases r with
  | http stat d =>
    refine ⟨d, ?_⟩
    have : stat = 429 := by simpa [is_rate_limited] using h
    rw [this]
  | netErr => simp [is_rate_limited] at h
  | exn => simp [is_rate_limited] at h

theorem make_api_go_429_step (envr : ℕ → Resp) (src : String)
    (fuel attempt : ℕ) (delays : List ℚ) (d : RespData)
    (hd : envr attempt = .http 429 d) :
    make_api_request_go envr src (fuel + 1) attempt delays
      = make_api_request_go envr src fuel (attempt + 1)
          (delays ++ [retry_delay * ((attempt : ℚ) + 1)]) := by
  rw [make_api_request_go, hd]

theorem make_api_429 (envr : ℕ → Resp) (src : String)
    (h : ∀ n, is_rate_limited (envr n) = true) :
    make_api_request envr src
      = ⟨[], 3, [retry_delay * 1, retry_delay * 2, retry_delay * 3]⟩ := by
  obtain ⟨d0, h0⟩ := rl_destruct _ (h 0)
  obtain ⟨d1, h1⟩ := rl_destruct _ (h 1)
  obtain ⟨d2, h2⟩ := rl_destruct _ (h 2)
  show make_api_request_go envr src 3 0 [] = _
  rw [show (3 : ℕ) = 2 + 1 from rfl, make_api_go_429_step envr src 2 0 [] d0 h0,
    make_api_go_429_step envr src 1 1 _ d1 h1,
    make_api_go_429_step envr src 0 2 _ d2 h2]
  show ApiResult.mk [] 3 _ = _
  norm_num

theorem mem_fetch_all (sources : List String) (env : Env)
    (clock keywords location : String) (t : String) (r : List Job × ApiResult)
    (j : Job) (ht : t ∈ sources)
    (hr : fetch_source env clock keywords location t = some r) (hj : j ∈ r.1) :
    j ∈ (fetch_all_sources sources env clock keywords location).1 := by
  simp only [fetch_all_sources]
  rw [List.mem_flatten]
  refine ⟨r.1, ?_, hj⟩
  rw [List.mem_map]
  refine ⟨(t, r), ?_, rfl⟩
  rw [List.mem_filterMap]
  exact ⟨t, ht, by rw [hr]; rfl⟩

/-! ## Claim C9 -/

/-- C9, confirmed: a source whose every response is rate-limited (HTTP
429) is attempted exactly `max_retries = 3` times, the sleeps requested
are `retry_delay * attemptNumber` (so the delays between consecutive
attempts are `retry_delay * 1` and `retry_delay * 2`, with one final
linear sleep after the last attempt), the source contributes an empty
result, and the run still completes: every listing fetched by any source
of the run is present in the aggregate output. -/
theorem rate_limited_retry_bound (env : Env)
    (clock keywords location : String) (sources : List String) (s : String)
    (hs : s ∈ sources) (hk : is_known_source s = true)
    (h429 : ∀ n,
      is_rate_limited (env (source_url s) (source_params s keywords location) n)
        = true) :
    (make_api_request (env (source_url s) (source_params s keywords location)) s).attempts
        = max_retries
      ∧ (make_api_request (env (source_url s) (source_params s keywords location)) s).jobs
          = []
      ∧ (make_api_request (env (source_url s) (source_params s keywords location)) s).delays
          = [retry_delay * 1, retry_delay * 2, retry_delay * 3]
      ∧ fetch_source env clock keywords location s
          = some ([],
              make_api_request (env (source_url s) (source_params s keywords location)) s)
      ∧ ∀ (t : String) (r : List Job × ApiResult) (j : Job), t ∈ sources →
          fetch_source env clock keywords location t = some r → j ∈ r.1 →
            j ∈ (fetch_all_sources sources env clock keywords location).1 := by
  have hm := make_api_429
    (env (source_url s) (source_params s keywords location)) s h429
  refine ⟨by rw [hm]; rfl, by rw [hm], by rw [hm], ?_,
    fun t r j => mem_fetch_all sources env clock keywords location t r j⟩
  simp only [fetch_source, hk, if_true, hm]
  rfl

/-- C9, witness: in `envRL`, linkedin is rate-limited on every attempt; it
is attempted `max_retries` times, yet the record indeed returned is in the
aggregate output. -/
theorem rate_limited_retry_bound_witness :
    (make_api_request (envRL (source_url "linkedin")
          (source_params "linkedin" "" "")) "linkedin").attempts = max_retries
      ∧ parse_job_listing rawJobA "t"
          ∈ (fetch_all_sources default_sources envRL "t" "" "").1 := by
  have h := rate_limited_retry_bound envRL "t" "" "" default_sources "linkedin"
    (by decide) (by decide) (fun _ => rfl)
  exact ⟨h.1,
    h.2.2.2.2 "indeed"
      ([parse_job_listing rawJobA "t"], ⟨[rawJobA], 1, []⟩)
      (parse_job_listing rawJobA "t") (by decide) rfl (by decide)⟩

/-! ## Claim C8 -/

/-- C8: the claim is right and the code is wrong. `fetch_jobs` performs no
query validation: called with empty keywords (the repository's own test
expects a `ValueError` here) it queries every configured source — one
attempt each in this environment — and returns their listings; no
`InvalidQuery` rejection exists anywhere in the code. -/
theorem fetch_empty_keywords_not_rejected :
    ((fetch_jobs default_sources env200 "t" "" "").2.map
          (fun t => (t.1, t.2.attempts)))
        = [("linkedin", 1), ("indeed", 1), ("glassdoor", 1)]
      ∧ (fetch_jobs default_sources env200 "t" "" "").1
          = [parse_job_listing rawJobA "t", parse_job_listing rawJobA "t",
             parse_job_listing rawJobA "t"] := by
  exact ⟨by decide, by decide⟩

end JobHunt
